import Mathlib

/-!
# Verification of the sentrial authenticating reverse-proxy gateway

Shallow embedding of the core of the repository: the TOTP engine, the MFA
manager (setup session registry + secret store), the authentication route
handlers, and the request-admission middleware chain of the HTTPS proxy
server.  Machine integers are modelled as `Nat` with explicit `% 2 ^ 32`
where 32-bit overflow matters; JS strings are modelled as `String` (paths,
usernames, secrets) or `List Char` (candidate token characters); fallible
operations return `Option` or an explicit result type.
-/

set_option maxRecDepth 100000

namespace Sentrial

/-! ## TOTP engine

Modelled from the spec: the repository delegates TOTP code derivation to the
external `speakeasy` library (not part of the repository sources).  Per the
spec, `generate` computes an HMAC-SHA1-based one-time code (RFC 6238) over
the 30-second step counter keyed by the base32-decoded secret, truncated to
a 6-digit zero-padded decimal code, and `verify` recomputes `generate` for
the step values in `[step - window, step + window]` and accepts if any
matches the candidate. -/

/-- Value of one RFC 4648 base32 alphabet character (A-Z, 2-7). -/
def base32CharVal (c : Char) : Nat :=
  if 'A' ≤ c ∧ c ≤ 'Z' then c.toNat - 'A'.toNat
  else if '2' ≤ c ∧ c ≤ '7' then 26 + (c.toNat - '2'.toNat)
  else 0

/-- RFC 4648 base32 decoding (unpadded input) to a big-endian byte list. -/
def base32Decode (s : List Char) : List Nat :=
  let bits := 5 * s.length
  let v := s.foldl (fun acc c => acc * 32 + base32CharVal c) 0
  let v2 := v >>> (bits % 8)
  let n := bits / 8
  (List.range n).map (fun i => (v2 >>> (8 * (n - 1 - i))) % 256)

/-- 32-bit left rotation. -/
def rotl (n x : Nat) : Nat := ((x <<< n) ||| (x >>> (32 - n))) % 4294967296

/-- SHA-1 message padding of a byte list: append 0x80, zeros to 56 mod 64,
then the 64-bit big-endian bit length. -/
def sha1Pad (msg : List Nat) : List Nat :=
  let len := msg.length
  msg ++ [128] ++ List.replicate ((119 - len % 64) % 64) 0 ++
    (List.range 8).map (fun i => ((8 * len) >>> (8 * (7 - i))) % 256)

/-- Split a byte list into 64-byte blocks (structural recursion on a fuel
bound so that the kernel can reduce it; `l.length` steps always suffice
because every step consumes at least one byte). -/
def chunks64Fuel : Nat → List Nat → List (List Nat)
  | 0, _ => []
  | _, [] => []
  | fuel + 1, x :: rest => ((x :: rest).take 64) :: chunks64Fuel fuel ((x :: rest).drop 64)

/-- Split a byte list into 64-byte blocks. -/
def chunks64 (l : List Nat) : List (List Nat) := chunks64Fuel l.length l

/-- Strict continuation application: pattern-matching on the number forces it
to a numeral before the continuation consumes it, which keeps kernel
reduction depth bounded in the iterated hash rounds below.  Semantically the
identity: `natCase k n = k n`. -/
def natCase {α : Type} (k : Nat → α) : Nat → α
  | 0 => k 0
  | n + 1 => k (n + 1)

/-- The sixteen 32-bit big-endian words of a 64-byte block. -/
def blockWords (b : List Nat) : List Nat :=
  (List.range 16).map (fun i =>
    b.getD (4 * i) 0 * 16777216 + b.getD (4 * i + 1) 0 * 65536 +
      b.getD (4 * i + 2) 0 * 256 + b.getD (4 * i + 3) 0)

/-- One step of the SHA-1 message schedule: the next word is `rotl 1` of the
XOR of the words 3, 8, 14 and 16 positions back.  The words produced so far
are packed big-endian into one natural number (the most recent word in the
low 32 bits), so the four taps sit at fixed bit offsets. -/
def sha1ExtendWord (acc : Nat) : Nat :=
  rotl 1 (((acc >>> 64) % 4294967296) ^^^ ((acc >>> 224) % 4294967296) ^^^
    ((acc >>> 416) % 4294967296) ^^^ ((acc >>> 480) % 4294967296))

/-- Extend the packed schedule by `r` further words (strictly, via `natCase`). -/
def sha1WordsLoop : Nat → Nat → Nat
  | 0, acc => acc
  | r + 1, acc => natCase (sha1WordsLoop r) ((acc <<< 32) ||| sha1ExtendWord acc)

/-- The 80-word SHA-1 message schedule of one block, packed big-endian into
one natural number (word 0 in the top 32 bits). -/
def sha1Words (b : List Nat) : Nat :=
  sha1WordsLoop 64 ((blockWords b).foldl (fun acc w => (acc <<< 32) ||| w) 0)

/-- SHA-1 round function. -/
def sha1F (t b c d : Nat) : Nat :=
  if t < 20 then (b &&& c) ||| ((4294967295 ^^^ b) &&& d)
  else if t < 40 then b ^^^ c ^^^ d
  else if t < 60 then (b &&& c) ||| (b &&& d) ||| (c &&& d)
  else b ^^^ c ^^^ d

/-- SHA-1 round constants. -/
def sha1K (t : Nat) : Nat :=
  if t < 20 then 1518500249
  else if t < 40 then 1859775393
  else if t < 60 then 2400959708
  else 3395469782

/-- One SHA-1 round.  The five 32-bit working words `(a, b, c, d, e)` are
packed big-endian into a single natural number `st` (a occupies bits
128-159, e bits 0-31) so that forcing the state to a numeral between rounds
is a single `Nat` match. -/
def sha1Round (w : Nat) (t : Nat) (st : Nat) : Nat :=
  let a := (st >>> 128) % 4294967296
  let b := (st >>> 96) % 4294967296
  let c := (st >>> 64) % 4294967296
  let d := (st >>> 32) % 4294967296
  let e := st % 4294967296
  let tmp := (rotl 5 a + sha1F t b c d + e + sha1K t +
    (w >>> (32 * (79 - t))) % 4294967296) % 4294967296
  (((((tmp <<< 32) ||| a) <<< 32) ||| rotl 30 b) <<< 64) ||| (c <<< 32) ||| d

/-- Run SHA-1 rounds `80 - r` through `79` on the packed state, forcing the
state to a numeral after every round. -/
def sha1RoundsLoop (w : Nat) : Nat → Nat → Nat
  | 0, st => st
  | r + 1, st => natCase (sha1RoundsLoop w r) (sha1Round w (80 - (r + 1)) st)

/-- SHA-1 compression of one 64-byte block, on the packed five-word chain
value. -/
def sha1Compress (h : Nat) (block : List Nat) : Nat :=
  let s := sha1RoundsLoop (sha1Words block) 80 h
  let add32 := fun i =>
    (((h >>> (32 * i)) % 4294967296 + (s >>> (32 * i)) % 4294967296) % 4294967296) <<< (32 * i)
  add32 4 ||| add32 3 ||| add32 2 ||| add32 1 ||| add32 0

/-- SHA-1 initial chain value (packed: h0 in the top 32 bits). -/
def sha1Init : Nat :=
  (((((((1732584193 <<< 32) ||| 4023233417) <<< 32) ||| 2562383102) <<< 32) |||
    271733878) <<< 32) ||| 3285377520

/-- SHA-1 digest of a byte list, as a 160-bit natural number. -/
def sha1Nat (msg : List Nat) : Nat :=
  (chunks64 (sha1Pad msg)).foldl sha1Compress sha1Init

/-- SHA-1 of a byte list, as a 20-byte list. -/
def sha1Bytes (msg : List Nat) : List Nat :=
  (List.range 20).map (fun i => (sha1Nat msg >>> (8 * (19 - i))) % 256)

/-- HMAC-SHA1 for keys of at most 64 bytes (TOTP keys are 10-20 bytes). -/
def hmacSha1 (key msg : List Nat) : List Nat :=
  let k := key ++ List.replicate (64 - key.length) 0
  sha1Bytes ((k.map (fun b => b ^^^ 92)) ++ sha1Bytes ((k.map (fun b => b ^^^ 54)) ++ msg))

/-- The 8-byte big-endian encoding of the step counter. -/
def counterBytes8 (c : Nat) : List Nat :=
  (List.range 8).map (fun i => (c >>> (8 * (7 - i))) % 256)

/-- RFC 4226 dynamic truncation of the HMAC digest to a 6-digit code value. -/
def hotpNat (key : List Nat) (counter : Nat) : Nat :=
  let d := hmacSha1 key (counterBytes8 counter)
  let off := d.getD 19 0 &&& 15
  ((d.getD off 0 &&& 127) * 16777216 + d.getD (off + 1) 0 * 65536 +
    d.getD (off + 2) 0 * 256 + d.getD (off + 3) 0) % 1000000

/-- The zero-padded 6-character decimal rendering of a code value. -/
def natToCode6 (n : Nat) : List Char :=
  (List.range 6).map (fun i => Char.ofNat (48 + n / 10 ^ (5 - i) % 10))

/-- TOTP code characters for a base32 secret at a given 30-second step. -/
def totpAtStep (secret : String) (step : Nat) : List Char :=
  natToCode6 (hotpNat (base32Decode secret.data) step)

/-- Modelled from the spec: speakeasy totp generation, as invoked by
MFAManager.generateCurrentToken (step 30, counter = floor(time / 30)). -/
def totp (secret : String) (time : Nat) : List Char :=
  totpAtStep secret (time / 30)

/-- Modelled from the spec: speakeasy totp.verify, as invoked by the
MFAManager (step 30): recompute the code for each step in
`[counter - window, counter + window]` (natural-number subtraction; this
matches the source whenever `counter ≥ window`, i.e. any time from 1970
onward) and accept if any equals the candidate. -/
def totpVerify (secret : String) (token : List Char) (time window : Nat) : Bool :=
  let counter := time / 30
  ((List.range (2 * window + 1)).map (fun j => counter + j - window)).any
    (fun k => totpAtStep secret k == token)

-- Cross-checks: base32 decoding, and the RFC 6238 appendix test vector
-- (secret = base32 of ASCII "12345678901234567890", T = 59 is step 1 and
-- gives the 8-digit code 94287082, so the 6-digit code is 287082).
example : base32Decode "JBSWY3DPEHPK3PXP".data =
    [72, 101, 108, 108, 111, 33, 222, 173, 190, 239] := by decide
example :
    hotpNat (base32Decode "GEZDGNBVGY3TQOJQGEZDGNBVGY3TQOJQ".data) 1 = 287082 := by decide

/-! ## Association-list model of the JS `Map`

`MFAManager` keeps its two registries in JS `Map`s.  A `Map` is modelled as
an association list with unique keys in insertion order; `aset` mirrors
`Map.set` (replace in place if the key exists, else append), `aerase`
mirrors `Map.delete`, `alookup` mirrors `Map.get`. -/

/-- `Map.get`: the value stored under the first (in a well-formed map: only)
occurrence of the key. -/
def alookup {α β : Type} [DecidableEq α] (k : α) : List (α × β) → Option β
  | [] => none
  | p :: rest => if p.1 = k then some p.2 else alookup k rest

/-- `Map.set`: replace the value under an existing key in place, else append
the new entry. -/
def aset {α β : Type} [DecidableEq α] (k : α) (v : β) (l : List (α × β)) :
    List (α × β) :=
  if (alookup k l).isSome then
    l.map (fun p => if p.1 = k then (k, v) else p)
  else l ++ [(k, v)]

/-- `Map.delete`: remove the entry under the key (in a well-formed map there
is at most one). -/
def aerase {α β : Type} [DecidableEq α] (k : α) (l : List (α × β)) :
    List (α × β) :=
  l.filter (fun p => decide (p.1 ≠ k))

/-! ## MFA manager (src/unnamed/part_004, class MFAManager)

The manager owns `pendingSetups : Map setupId → {username, secret,
timestamp}` and `userSecrets : Map username → secret`.  Setup ids are
produced by `uuidv4()`, i.e. fresh unguessable tokens; freshness is modelled
by a counter `nextSetupId` carried in the state.  The `speakeasy`-generated
random secret and the wall clock `Date.now()` are passed in as arguments.
The 30-minute `setTimeout` self-expiry scheduled by `generateSecret` is
modelled by `fireDueTimers`: in the Node event loop, every timer whose due
time has been reached fires before a request callback that is handled at a
later wall-clock time, so handling a request at time `now` is modelled as
running it on `fireDueTimers now` of the state. -/

/-- A pending MFA setup record: `{username, secret, timestamp}`
(`timestamp : Date.now()` in milliseconds). -/
structure PendingSetup where
  username : String
  secret : String
  timestamp : Nat
deriving Repr, DecidableEq

/-- The mutable state of the `MFAManager` singleton. -/
structure MFAState where
  pendingSetups : List (Nat × PendingSetup)
  userSecrets : List (String × String)
  nextSetupId : Nat
deriving Repr, DecidableEq

/-- The pending-setup TTL: `30 * 60 * 1000` milliseconds. -/
def setupTTL : Nat := 30 * 60 * 1000

/-- `cleanupUserSetups(username)`: delete every pending setup whose
`username` matches; returns the number deleted and the new state. -/
def cleanupUserSetups (username : String) (st : MFAState) : Nat × MFAState :=
  ((st.pendingSetups.filter (fun p => p.2.username == username)).length,
    { st with pendingSetups :=
        st.pendingSetups.filter (fun p => !(p.2.username == username)) })

/-- `generateSecret(username)`: clean up the user's old setups, then store a
new pending setup under a fresh setup id; returns the setup id and the new
state.  `secret` is the fresh random base32 secret from
`speakeasy.generateSecret` and `now` is `Date.now()`. -/
def generateSecret (username secret : String) (now : Nat) (st : MFAState) :
    Nat × MFAState :=
  let st1 := (cleanupUserSetups username st).2
  (st1.nextSetupId,
    { st1 with
        pendingSetups :=
          aset st1.nextSetupId ⟨username, secret, now⟩ st1.pendingSetups,
        nextSetupId := st1.nextSetupId + 1 })

/-- Fire every `setTimeout`-scheduled setup expiry that is due by wall-clock
time `now`: the timer for a setup stored at `timestamp` deletes it
`setupTTL` milliseconds later. -/
def fireDueTimers (now : Nat) (st : MFAState) : MFAState :=
  { st with pendingSetups :=
      st.pendingSetups.filter (fun p => decide (now < p.2.timestamp + setupTTL)) }

/-- Result of `completeMFASetup`: `{success: true}` or
`{success: false, error: msg}`. -/
inductive CompleteResult where
  | success
  | failure (error : String)
deriving Repr, DecidableEq

/-- The concrete token verifier used by the manager: speakeasy
`totp.verify` with window 2 and step 30 on `utcTime` seconds. -/
def speakeasyVerify (secret : String) (token : List Char) (utcTime : Nat) : Bool :=
  totpVerify secret token utcTime 2

/-- `verifyToken(username, token)`, parametric in the token verifier `vf`
(the source calls speakeasy; instantiated below).  `nowMs` is `Date.now()`.
The source function performs no mutation, so it returns only the verdict:
missing secret → false; cleaned token not 6 digits → false; else delegate
to the verifier on `utcTime = floor(nowMs / 1000)`. -/
def verifyTokenWith (vf : String → List Char → Nat → Bool) (username : String)
    (token : List Char) (nowMs : Nat) (st : MFAState) : Bool :=
  match alookup username st.userSecrets with
  | none => false
  | some secret =>
    let cleanToken := token.filter Char.isDigit
    if cleanToken.length ≠ 6 then false
    else vf secret cleanToken (nowMs / 1000)

/-- `verifyToken(username, token)` as in the source. -/
def verifyToken (username : String) (token : List Char) (nowMs : Nat)
    (st : MFAState) : Bool :=
  verifyTokenWith speakeasyVerify username token nowMs st

/-- `completeMFASetup(setupId, token)`, parametric in the token verifier:
unknown/expired setup id → NotFound error; cleaned token not 6 digits →
format error; wrong code → invalid-token error; success commits the
candidate secret into `userSecrets` and deletes the pending setup. -/
def completeMFASetupWith (vf : String → List Char → Nat → Bool) (setupId : Nat)
    (token : List Char) (nowMs : Nat) (st : MFAState) : CompleteResult × MFAState :=
  match alookup setupId st.pendingSetups with
  | none => (.failure "Invalid or expired setup", st)
  | some setup =>
    let cleanToken := token.filter Char.isDigit
    if cleanToken.length ≠ 6 then (.failure "Token must be 6 digits", st)
    else if vf setup.secret cleanToken (nowMs / 1000) then
      (.success,
        { st with
            userSecrets := aset setup.username setup.secret st.userSecrets,
            pendingSetups := aerase setupId st.pendingSetups })
    else (.failure "Invalid token - please check your authenticator app time sync", st)

/-- `completeMFASetup(setupId, token)` as in the source. -/
def completeMFASetup (setupId : Nat) (token : List Char) (nowMs : Nat)
    (st : MFAState) : CompleteResult × MFAState :=
  completeMFASetupWith speakeasyVerify setupId token nowMs st

/-- A `completeMFASetup` request handled at wall-clock time `nowMs`: every
due timer has fired before the request callback runs. -/
def completeAt (nowMs : Nat) (setupId : Nat) (token : List Char)
    (st : MFAState) : CompleteResult × MFAState :=
  completeMFASetup setupId token nowMs (fireDueTimers nowMs st)

/-- `hasMFAEnabled(username)`. -/
def hasMFAEnabled (username : String) (st : MFAState) : Bool :=
  (alookup username st.userSecrets).isSome

/-- `resetMFA(username)`: delete the stored secret, report whether one
existed. -/
def resetMFA (username : String) (st : MFAState) : Bool × MFAState :=
  (hasMFAEnabled username st,
    { st with userSecrets := aerase username st.userSecrets })

/-! ## Sessions and authentication route handlers
(src/src/middleware/auth.js)

An express-session record.  Absent fields (`delete req.session.x` or never
assigned) are `false` / `none`. -/

/-- The per-client session object. -/
structure Session where
  authenticated : Bool
  passwordVerified : Bool
  username : Option String
  user : Option String
  mfaSetupId : Option Nat
deriving Repr, DecidableEq

/-- A fresh session, as created by express-session on first contact. -/
def freshSession : Session := ⟨false, false, none, none, none⟩

/-- The response of a route handler or middleware decision of the gateway. -/
inductive Decision where
  /-- Response ended locally by an auth/health/status route. -/
  | localRoute
  /-- 302 redirect to the location. -/
  | redirect (loc : String)
  /-- 401 with the machine-readable JSON body. -/
  | unauthorizedJson
  /-- Bare `res.status(401).end()` (websocket-upgrade branch). -/
  | unauthorizedEnd
  /-- Handed to the proxy middleware and relayed to the upstream target. -/
  | forward
  /-- Reached the proxy middleware but excluded by its path filter. -/
  | notProxied
deriving Repr, DecidableEq

/-- POST /auth/login (auth.js lines 242-287): compare the username against
the configured one and the password via bcrypt, on success mark the session
password-verified, bind the username, and redirect to setup or verify
depending on whether a secret is stored; on any failure (either factor, or
a bcrypt error caught by the try block) redirect back to the login page
with the generic error flag and leave the session untouched.
`checkPassword` models `bcrypt.compare(password, validPasswordHash)`. -/
def postLogin (validUsername : String) (checkPassword : String → Bool)
    (username password : String) (sess : Session) (st : MFAState) :
    Decision × Session :=
  if username == validUsername && checkPassword password then
    let sess1 := { sess with passwordVerified := true, username := some username }
    if hasMFAEnabled username st then (.redirect "/auth/mfa-verify", sess1)
    else (.redirect "/auth/mfa-setup", sess1)
  else (.redirect "/auth/login?error=1", sess)

/-- POST /auth/mfa-setup (auth.js lines 553-599): requires a
password-verified session holding a pending setup id; delegates to
`completeMFASetup`; on success marks the session authenticated, clears
`passwordVerified` and `mfaSetupId`, and redirects home; on failure
redirects back to the setup page. -/
def postMfaSetup (token : List Char) (nowMs : Nat) (sess : Session)
    (st : MFAState) : Decision × Session × MFAState :=
  if !sess.passwordVerified || sess.mfaSetupId.isNone then
    (.redirect "/auth/login", sess, st)
  else
    match sess.mfaSetupId with
    | none => (.redirect "/auth/login", sess, st)
    | some setupId =>
      match completeMFASetup setupId token nowMs st with
      | (.success, st1) =>
        (.redirect "/",
          { sess with
              authenticated := true, user := sess.username,
              passwordVerified := false, mfaSetupId := none },
          st1)
      | (.failure _, st1) => (.redirect "/auth/mfa-setup?error=1", sess, st1)

/-- POST /auth/mfa-verify (auth.js lines 833-874): requires a
password-verified session; delegates to `verifyToken` against the stored
secret; on success marks the session authenticated and clears
`passwordVerified`. -/
def postMfaVerify (token : List Char) (nowMs : Nat) (sess : Session)
    (st : MFAState) : Decision × Session :=
  if !sess.passwordVerified then (.redirect "/auth/login", sess)
  else
    let username := sess.username.getD ""
    if verifyToken username token nowMs st then
      (.redirect "/",
        { sess with authenticated := true, user := sess.username,
                    passwordVerified := false })
    else (.redirect "/auth/mfa-verify?error=1", sess)

/-! ## The HTTPS proxy server and its middleware chain
(src/unnamed/part_003, `server.js`) -/

/-- `path.startsWith(pre)` on JS strings. -/
def pathStartsWith (path pre : String) : Bool :=
  pre.data.isPrefixOf path.data

/-- An inbound request, as seen by the middleware chain.  `acceptJson`
models `req.headers.accept && req.headers.accept.includes('application/json')`;
`upgradeWebsocket` models `req.headers.upgrade === 'websocket'`. -/
structure Req where
  path : String
  acceptJson : Bool
  upgradeWebsocket : Bool
deriving Repr, DecidableEq

/-- The built-in default public-path list (part_003 lines 711-720). -/
def defaultPublicPaths : List String :=
  ["/api/auth", "/login", "/register", "/public", "/assets", "/static",
    "/favicon.ico", "/robots.txt"]

/-- `getPublicPaths()` (part_003 lines 723-735): if the `PUBLIC_PATHS`
environment variable is set, `JSON.parse` it and use the result; if parsing
throws, log a warning and fall back to `defaultPublicPaths`; if the
variable is unset, use `defaultPublicPaths`.  `parse` models `JSON.parse`
on a string-array configuration value, with `none` for a parse error; the
function itself never throws, so a malformed value cannot fail startup. -/
def getPublicPaths (envPaths : Option String)
    (parse : String → Option (List String)) : List String :=
  match envPaths with
  | some s =>
    match parse s with
    | some customPaths => customPaths
    | none => defaultPublicPaths
  | none => defaultPublicPaths

/-- `isPublicPath(path)` (part_003 lines 740-744): exact match or prefix
match where the path continues with a slash. -/
def isPublicPath (publicPaths : List String) (path : String) : Bool :=
  publicPaths.any (fun publicPath =>
    path == publicPath || pathStartsWith path (publicPath ++ "/"))

/-- The proxy middleware's `pathFilter` (part_003 lines 413-424): everything
is proxied except local auth paths and the health/status endpoints. -/
def proxyPathFilter (path : String) : Bool :=
  if pathStartsWith path "/auth/" then false
  else if path == "/health" || path == "/proxy-status" then false
  else true

/-- The express middleware chain for a plain HTTP request, in registration
order (part_003): the `/health` and `/proxy-status` routes, the `/auth`
router mount, the blanket authentication-redirect middleware of lines
396-401, the smart proxy middleware of lines 747-808, and finally the proxy
middleware itself with its path filter.  (The `/auth` mount is modelled as
terminating for every path under it; unmatched `/auth` subpaths would fall
through to a 404, which no claim depends on.) -/
def handleHttp (publicPaths : List String) (req : Req) (sess : Session) :
    Decision :=
  if req.path == "/health" then .localRoute
  else if req.path == "/proxy-status" then .localRoute
  else if req.path == "/auth" || pathStartsWith req.path "/auth/" then .localRoute
  else if !sess.authenticated && !(pathStartsWith req.path "/auth") then
    -- lines 396-401: app.use('/', ...) redirects every request of an
    -- unauthenticated session whose path does not start with '/auth'
    .redirect "/auth/login"
  else
    -- lines 747-808: the smart proxy middleware
    if pathStartsWith req.path "/auth/" || req.path == "/health" ||
        req.path == "/proxy-status" then
      if proxyPathFilter req.path then .forward else .notProxied
    else if isPublicPath publicPaths req.path then
      if proxyPathFilter req.path then .forward else .notProxied
    else if !sess.authenticated then
      if req.acceptJson then .unauthorizedJson
      else if req.upgradeWebsocket then .unauthorizedEnd
      else .redirect "/auth/login"
    else
      if proxyPathFilter req.path then .forward else .notProxied

/-- The `server.on('upgrade')` handler (part_003 lines 837-846): every
protocol-upgrade request is handed straight to `proxyMiddleware.upgrade`
(which applies only the path filter); no session or authentication state is
consulted. -/
def handleUpgrade (req : Req) : Decision :=
  if proxyPathFilter req.path then .forward else .notProxied

/-- An inbound event on the HTTPS server.  Node emits `'upgrade'` (and not
`'request'`) for a genuine protocol-upgrade handshake when an upgrade
listener is registered, so such requests never enter the express chain. -/
inductive Inbound where
  | http (req : Req) (sess : Session)
  | upgrade (req : Req) (sess : Session)
deriving Repr, DecidableEq

/-- Dispatch of one inbound event by the HTTPS server. -/
def dispatch (publicPaths : List String) : Inbound → Decision
  | .http req sess => handleHttp publicPaths req sess
  | .upgrade req _ => handleUpgrade req

/-! ## Helper lemmas on the association-list map model -/

theorem alookup_nil {α β : Type} [DecidableEq α] (k : α) :
    alookup (β := β) k [] = none := rfl

theorem alookup_cons {α β : Type} [DecidableEq α] (k : α) (a : α × β)
    (t : List (α × β)) :
    alookup k (a :: t) = if a.1 = k then some a.2 else alookup k t := rfl

theorem filterIdem {α : Type} (p : α → Bool) (l : List α) :
    (l.filter p).filter p = l.filter p := by
  induction l with
  | nil => rfl
  | cons a t ih =>
    rw [List.filter_cons]
    cases h : p a
    · simpa only [Bool.false_eq_true, if_false] using ih
    · simp only [if_true, List.filter_cons, h, ih]

theorem length_filter_filter_le {α : Type} (p q : α → Bool) (l : List α) :
    ((l.filter p).filter q).length ≤ (l.filter q).length := by
  induction l with
  | nil => exact Nat.le_refl 0
  | cons a t ih =>
    rw [List.filter_cons, List.filter_cons]
    cases hp : p a <;> cases hq : q a <;>
      simp only [Bool.false_eq_true, if_false, if_true, List.filter_cons, hq,
        List.length_cons]
    · exact ih
    · exact Nat.le_succ_of_le ih
    · exact ih
    · exact Nat.succ_le_succ ih

theorem filter_not_filter_eq_nil {α : Type} (p : α → Bool) (l : List α) :
    (l.filter (fun x => !(p x))).filter p = [] := by
  induction l with
  | nil => rfl
  | cons a t ih =>
    rw [List.filter_cons]
    cases h : p a
    · simp only [h, Bool.not_false, if_true, List.filter_cons, Bool.false_eq_true,
        if_false, ih]
    · simpa only [h, Bool.not_true, Bool.false_eq_true, if_false] using ih

theorem alookup_eq_none_iff {α β : Type} [DecidableEq α] (k : α)
    (l : List (α × β)) : alookup k l = none ↔ ∀ p ∈ l, p.1 ≠ k := by
  induction l with
  | nil => simp [alookup_nil]
  | cons a t ih =>
    rw [alookup_cons]
    by_cases h : a.1 = k
    · rw [if_pos h]
      constructor
      · intro hn; cases hn
      · intro hall; exact absurd h (hall a (List.mem_cons_self a t))
    · rw [if_neg h, ih]
      constructor
      · intro hall p hp
        rcases List.mem_cons.mp hp with he | hm
        · subst he; exact h
        · exact hall p hm
      · intro hall p hp
        exact hall p (List.mem_cons_of_mem a hp)

theorem alookup_append_of_none {α β : Type} [DecidableEq α] (k : α)
    (l1 l2 : List (α × β)) (h : alookup k l1 = none) :
    alookup k (l1 ++ l2) = alookup k l2 := by
  induction l1 with
  | nil => rfl
  | cons a t ih =>
    rw [alookup_cons] at h
    by_cases ha : a.1 = k
    · rw [if_pos ha] at h; cases h
    · rw [if_neg ha] at h
      rw [List.cons_append, alookup_cons, if_neg ha]
      exact ih h

theorem alookup_map_replace {α β : Type} [DecidableEq α] (k : α) (v : β)
    (l : List (α × β)) (hs : (alookup k l).isSome = true) :
    alookup k (l.map (fun p => if p.1 = k then (k, v) else p)) = some v := by
  induction l with
  | nil => rw [alookup_nil] at hs; cases hs
  | cons a t ih =>
    rw [alookup_cons] at hs
    by_cases ha : a.1 = k
    · simp only [List.map_cons, if_pos ha, alookup_cons, if_pos rfl, if_true]
    · rw [if_neg ha] at hs
      simp only [List.map_cons, if_neg ha, alookup_cons, if_neg ha]
      exact ih hs

theorem alookup_aset_self {α β : Type} [DecidableEq α] (k : α) (v : β)
    (l : List (α × β)) : alookup k (aset k v l) = some v := by
  unfold aset
  by_cases hs : (alookup k l).isSome = true
  · rw [if_pos hs]
    exact alookup_map_replace k v l hs
  · rw [if_neg hs]
    have hn : alookup k l = none := by
      revert hs; cases alookup k l <;> simp
    rw [alookup_append_of_none k l _ hn, alookup_cons, if_pos rfl]

theorem alookup_aerase_self {α β : Type} [DecidableEq α] (k : α)
    (l : List (α × β)) : alookup k (aerase k l) = none := by
  rw [alookup_eq_none_iff]
  intro p hp
  have := (List.mem_filter.mp hp).2
  simpa using this

theorem alookup_filter_eq_none {α β : Type} [DecidableEq α] (k : α) (v : β)
    (p : α × β → Bool) (l : List (α × β)) (hfind : alookup k l = some v)
    (hnd : (l.map Prod.fst).Nodup) (hp : p (k, v) = false) :
    alookup k (l.filter p) = none := by
  induction l with
  | nil => rw [alookup_nil] at hfind; cases hfind
  | cons a t ih =>
    rw [alookup_cons] at hfind
    simp only [List.map_cons, List.nodup_cons] at hnd
    by_cases ha : a.1 = k
    · rw [if_pos ha] at hfind
      have hk : a = (k, v) := by
        cases a
        simp only [Option.some.injEq] at hfind
        simp_all
      subst hk
      have hnd1 : k ∉ List.map Prod.fst t := hnd.1
      rw [List.filter_cons, hp]
      simp only [Bool.false_eq_true, if_false]
      rw [alookup_eq_none_iff]
      intro q hq he
      apply hnd1
      rw [← he]
      exact List.mem_map_of_mem Prod.fst (List.mem_of_mem_filter hq)
    · rw [if_neg ha] at hfind
      rw [List.filter_cons]
      cases hpa : p a
      · simp only [Bool.false_eq_true, if_false]
        exact ih hfind hnd.2
      · simp only [if_true]
        rw [alookup_cons, if_neg ha]
        exact ih hfind hnd.2

/-! ## Claims -/

/-- C1: the claim fails on the code.  With `publicPaths = ["/public"]` (the
spec's end-to-end scenario C) an unauthenticated request to `/public/x` is
redirected to the login page by the blanket authentication middleware of
part_003 lines 396-401, which runs before the public-path check of the
smart proxy middleware ever does; it is not forwarded.  The same happens
under the default public-path list. -/
theorem c1_public_path_redirected_not_forwarded :
    handleHttp ["/public"] ⟨"/public/x", false, false⟩ freshSession =
      .redirect "/auth/login" ∧
    handleHttp defaultPublicPaths ⟨"/public/x", false, false⟩ freshSession =
      .redirect "/auth/login" ∧
    handleHttp ["/public"] ⟨"/public/x", false, false⟩ freshSession ≠
      .forward := by
  refine ⟨by decide, by decide, by decide⟩

/-- C2: the claim fails on the code.  A genuine WebSocket upgrade handshake
is delivered by Node to the server's upgrade listener (part_003 lines
837-846), never to the express chain, and that listener hands every upgrade
to the proxy without consulting any session: an unauthenticated upgrade on
the non-public path `/private` is forwarded to the upstream target, not
rejected with 401. -/
theorem c2_unauthenticated_upgrade_forwarded :
    dispatch ["/public"] (.upgrade ⟨"/private", false, true⟩ freshSession) =
      .forward ∧
    dispatch ["/public"] (.upgrade ⟨"/private", false, true⟩ freshSession) ≠
      .unauthorizedEnd := by
  refine ⟨by decide, by decide⟩

/-- C6: candidate tokens are normalized by stripping non-digits before any
comparison: `verifyToken` and `completeMFASetup` behave on a raw candidate
exactly as on its digit-filtered form, a candidate whose digit-filtered
form is not 6 characters is rejected as an ordinary failure
(`verifyToken` false; `completeMFASetup` the format error whenever the
setup id resolves), and all functions are total (no exceptions). -/
theorem c6_token_normalization :
    (∀ username token nowMs st,
      verifyToken username token nowMs st =
        verifyToken username (token.filter Char.isDigit) nowMs st) ∧
    (∀ username token nowMs st, (token.filter Char.isDigit).length ≠ 6 →
      verifyToken username token nowMs st = false) ∧
    (∀ setupId token nowMs st,
      completeMFASetup setupId token nowMs st =
        completeMFASetup setupId (token.filter Char.isDigit) nowMs st) ∧
    (∀ setupId token nowMs st setup,
      alookup setupId st.pendingSetups = some setup →
      (token.filter Char.isDigit).length ≠ 6 →
      (completeMFASetup setupId token nowMs st).1 =
        CompleteResult.failure "Token must be 6 digits") := by
  refine ⟨?_, ?_, ?_, ?_⟩
  · intro username token nowMs st
    unfold verifyToken verifyTokenWith
    cases alookup username st.userSecrets
    · rfl
    · simp only [filterIdem]
  · intro username token nowMs st h6
    unfold verifyToken verifyTokenWith
    cases alookup username st.userSecrets
    · rfl
    · simp only [if_pos h6]
  · intro setupId token nowMs st
    unfold completeMFASetup completeMFASetupWith
    cases alookup setupId st.pendingSetups
    · rfl
    · simp only [filterIdem]
  · intro setupId token nowMs st setup hfind h6
    unfold completeMFASetup completeMFASetupWith
    rw [hfind]
    simp only [if_pos h6]

/-- C6 witness: the claim theorem applied at a concrete input: the raw
candidate "12 3" strips to 3 digits and is rejected by `verifyToken` even
though a secret is stored for the user. -/
theorem c6_normalization_witness :
    ((['1', '2', ' ', '3'].filter Char.isDigit).length ≠ 6) ∧
    verifyToken "alice" ['1', '2', ' ', '3'] 0
      ⟨[], [("alice", "JBSWY3DPEHPK3PXP")], 0⟩ = false :=
  ⟨by decide,
    c6_token_normalization.2.1 "alice" ['1', '2', ' ', '3'] 0
      ⟨[], [("alice", "JBSWY3DPEHPK3PXP")], 0⟩ (by decide)⟩

/-- C8: any two failed password submissions (wrong username, wrong
password, or both) produce the identical response, the generic login-error
redirect, and return the session unchanged - no `passwordVerified`, no
bound username. -/
theorem c8_failed_login_indistinguishable (validUsername : String)
    (checkPassword : String → Bool) (u1 p1 u2 p2 : String) (sess : Session)
    (st : MFAState)
    (h1 : (u1 == validUsername && checkPassword p1) = false)
    (h2 : (u2 == validUsername && checkPassword p2) = false) :
    postLogin validUsername checkPassword u1 p1 sess st =
      postLogin validUsername checkPassword u2 p2 sess st ∧
    postLogin validUsername checkPassword u1 p1 sess st =
      (.redirect "/auth/login?error=1", sess) := by
  unfold postLogin
  rw [h1, h2]
  exact ⟨rfl, rfl⟩

/-- C8 witness: a wrong-username attempt and a wrong-password attempt get
the same observable outcome on the same session. -/
theorem c8_failed_login_witness :
    (("bob" == "admin") && (("hunter2" : String) == "hunter2")) = false ∧
    (("admin" == "admin") && (("wrong" : String) == "hunter2")) = false ∧
    postLogin "admin" (fun pw => pw == "hunter2") "bob" "hunter2"
        freshSession ⟨[], [], 0⟩ =
      postLogin "admin" (fun pw => pw == "hunter2") "admin" "wrong"
        freshSession ⟨[], [], 0⟩ :=
  ⟨by decide, by decide,
    (c8_failed_login_indistinguishable "admin" (fun pw => pw == "hunter2")
      "bob" "hunter2" "admin" "wrong" freshSession ⟨[], [], 0⟩
      (by decide) (by decide)).1⟩

/-- C9: when `PUBLIC_PATHS` is present but `JSON.parse` rejects it, the
public-path list is the documented default list; `getPublicPaths` is total,
so the malformed value cannot fail startup. -/
theorem c9_malformed_public_paths_fall_back (s : String)
    (parse : String → Option (List String)) (hmal : parse s = none) :
    getPublicPaths (some s) parse =
      ["/api/auth", "/login", "/register", "/public", "/assets", "/static",
        "/favicon.ico", "/robots.txt"] ∧
    getPublicPaths (some s) parse = defaultPublicPaths := by
  unfold getPublicPaths
  simp [hmal, defaultPublicPaths]

/-- C9 witness: the claim theorem applied to a concrete unparseable value. -/
theorem c9_fallback_witness :
    (fun _ => (none : Option (List String))) "not json" = none ∧
    getPublicPaths (some "not json") (fun _ => none) = defaultPublicPaths :=
  ⟨rfl, (c9_malformed_public_paths_fall_back "not json" (fun _ => none) rfl).2⟩

/-- C10: with no stored secret for the username, `verifyToken` returns
false for every candidate token, every clock value, and every verifier
function (so the TOTP verifier cannot influence the outcome); the source
function performs no mutation, which the embedding reflects by returning
only the verdict. -/
theorem c10_missing_secret_verify_false (username : String)
    (token : List Char) (nowMs : Nat) (st : MFAState)
    (h : alookup username st.userSecrets = none) :
    verifyToken username token nowMs st = false ∧
    ∀ vf, verifyTokenWith vf username token nowMs st = false := by
  constructor
  · unfold verifyToken verifyTokenWith
    rw [h]
  · intro vf
    unfold verifyTokenWith
    rw [h]

/-- C10 witness: the claim theorem applied to an empty secret store. -/
theorem c10_missing_secret_witness :
    alookup "alice" (⟨[], [], 0⟩ : MFAState).userSecrets = none ∧
    verifyToken "alice" ['1', '2', '3', '4', '5', '6'] 0 ⟨[], [], 0⟩ = false :=
  ⟨rfl, (c10_missing_secret_verify_false "alice" ['1', '2', '3', '4', '5', '6']
    0 ⟨[], [], 0⟩ rfl).1⟩

/-- C3: a pending setup created at time `t0` can no longer be completed by
a request handled more than 30 minutes later: by then the `setTimeout`
expiry has fired and deleted the record, so `completeMFASetup` reports the
NotFound error whatever the supplied token (in particular for the correct
TOTP code).  `hnd` is key-uniqueness, automatic for a JS `Map`. -/
theorem c3_expired_setup_not_completable (st : MFAState) (setupId : Nat)
    (setup : PendingSetup) (token : List Char) (nowMs : Nat)
    (hnd : (st.pendingSetups.map Prod.fst).Nodup)
    (hfind : alookup setupId st.pendingSetups = some setup)
    (hexp : setup.timestamp + setupTTL < nowMs) :
    (completeAt nowMs setupId token st).1 =
      CompleteResult.failure "Invalid or expired setup" := by
  have hnone : alookup setupId (fireDueTimers nowMs st).pendingSetups = none := by
    unfold fireDueTimers
    apply alookup_filter_eq_none setupId setup _ _ hfind hnd
    simp only [decide_eq_false_iff_not, not_lt]
    omega
  unfold completeAt completeMFASetup completeMFASetupWith
  rw [hnone]

/-- C3 witness: the claim theorem applied to a concrete registry, one
millisecond past the TTL. -/
theorem c3_expiry_witness :
    alookup 5 (⟨[(5, ⟨"alice", "JBSWY3DPEHPK3PXP", 1000⟩)], [], 6⟩ :
        MFAState).pendingSetups = some ⟨"alice", "JBSWY3DPEHPK3PXP", 1000⟩ ∧
    1000 + setupTTL < 1801001 ∧
    (completeAt 1801001 5 ['1', '2', '3', '4', '5', '6']
        ⟨[(5, ⟨"alice", "JBSWY3DPEHPK3PXP", 1000⟩)], [], 6⟩).1 =
      CompleteResult.failure "Invalid or expired setup" :=
  ⟨by decide, by decide,
    c3_expired_setup_not_completable
      ⟨[(5, ⟨"alice", "JBSWY3DPEHPK3PXP", 1000⟩)], [], 6⟩ 5
      ⟨"alice", "JBSWY3DPEHPK3PXP", 1000⟩ ['1', '2', '3', '4', '5', '6'] 1801001
      (by decide) (by decide) (by decide)⟩

/-- C7: whenever `completeMFASetup` succeeds for a pending setup of
username `u` with candidate secret `s`, the POST /auth/mfa-setup handler
leaves the secret store mapping `u` to `s`, the pending record deleted,
and the session authenticated with `passwordVerified` and the pending
setup id cleared. -/
theorem c7_setup_completion_commits (sess : Session) (st : MFAState)
    (setupId : Nat) (setup : PendingSetup) (token : List Char) (nowMs : Nat)
    (hpw : sess.passwordVerified = true)
    (hid : sess.mfaSetupId = some setupId)
    (hfind : alookup setupId st.pendingSetups = some setup)
    (hsuc : (completeMFASetup setupId token nowMs st).1 = CompleteResult.success) :
    alookup setup.username (postMfaSetup token nowMs sess st).2.2.userSecrets =
      some setup.secret ∧
    alookup setupId (postMfaSetup token nowMs sess st).2.2.pendingSetups = none ∧
    (postMfaSetup token nowMs sess st).2.1.authenticated = true ∧
    (postMfaSetup token nowMs sess st).2.1.passwordVerified = false ∧
    (postMfaSetup token nowMs sess st).2.1.mfaSetupId = none := by
  have hstep : completeMFASetup setupId token nowMs st =
      (CompleteResult.success,
        { st with
            userSecrets := aset setup.username setup.secret st.userSecrets,
            pendingSetups := aerase setupId st.pendingSetups }) := by
    unfold completeMFASetup completeMFASetupWith at hsuc ⊢
    rw [hfind] at hsuc ⊢
    by_cases h6 : (token.filter Char.isDigit).length ≠ 6
    · simp only [if_pos h6] at hsuc
      cases hsuc
    · simp only [if_neg h6] at hsuc ⊢
      by_cases hv : speakeasyVerify setup.secret (token.filter Char.isDigit)
          (nowMs / 1000) = true
      · simp only [hv, if_true]
      · simp only [Bool.not_eq_true] at hv
        simp only [hv, Bool.false_eq_true, if_false] at hsuc
        cases hsuc
  have hpost : postMfaSetup token nowMs sess st =
      (.redirect "/",
        { sess with
            authenticated := true, user := sess.username,
            passwordVerified := false, mfaSetupId := none },
        { st with
            userSecrets := aset setup.username setup.secret st.userSecrets,
            pendingSetups := aerase setupId st.pendingSetups }) := by
    unfold postMfaSetup
    rw [hpw, hid]
    simp only [Bool.not_true, Option.isNone_some, Bool.or_self,
      Bool.false_eq_true, if_false, hstep]
  rw [hpost]
  exact ⟨alookup_aset_self setup.username setup.secret st.userSecrets,
    alookup_aerase_self setupId st.pendingSetups, rfl, rfl, rfl⟩

/-- C7 witness: a concrete run of the whole flow.  At wall-clock time
1758012390000 ms the TOTP counter is 58600413 and 966175 is the code of
step 58600411, inside the verification window, so setup 7 for alice with
the candidate secret JBSWY3DPEHPK3PXP completes successfully; the claim
theorem then gives the committed secret, the deleted record, and the
authenticated session. -/
theorem c7_commit_witness :
    (completeMFASetup 7 ['9', '6', '6', '1', '7', '5'] 1758012390000
        ⟨[(7, ⟨"alice", "JBSWY3DPEHPK3PXP", 1758012000000⟩)], [], 8⟩).1 =
      CompleteResult.success ∧
    alookup "alice"
      (postMfaSetup ['9', '6', '6', '1', '7', '5'] 1758012390000
        ⟨false, true, some "alice", none, some 7⟩
        ⟨[(7, ⟨"alice", "JBSWY3DPEHPK3PXP", 1758012000000⟩)], [], 8⟩).2.2.userSecrets =
      some "JBSWY3DPEHPK3PXP" ∧
    (postMfaSetup ['9', '6', '6', '1', '7', '5'] 1758012390000
      ⟨false, true, some "alice", none, some 7⟩
      ⟨[(7, ⟨"alice", "JBSWY3DPEHPK3PXP", 1758012000000⟩)], [], 8⟩).2.1.authenticated =
      true :=
  ⟨by decide,
    (c7_setup_completion_commits ⟨false, true, some "alice", none, some 7⟩
      ⟨[(7, ⟨"alice", "JBSWY3DPEHPK3PXP", 1758012000000⟩)], [], 8⟩ 7
      ⟨"alice", "JBSWY3DPEHPK3PXP", 1758012000000⟩ ['9', '6', '6', '1', '7', '5']
      1758012390000 rfl rfl rfl (by decide)).1,
    (c7_setup_completion_commits ⟨false, true, some "alice", none, some 7⟩
      ⟨[(7, ⟨"alice", "JBSWY3DPEHPK3PXP", 1758012000000⟩)], [], 8⟩ 7
      ⟨"alice", "JBSWY3DPEHPK3PXP", 1758012000000⟩ ['9', '6', '6', '1', '7', '5']
      1758012390000 rfl rfl rfl (by decide)).2.2.1⟩

/-- C5 counterexample: the rejection half of the claim is false.  With the
repository's own benchmark secret JBSWY3DPEHPK3PXP, the code generated at
time 1758012390 (step 58600413) is ACCEPTED by window-2 verification at
time 1758015990, whose step 58600533 lies 120 steps outside the window:
step 58600531, inside the verification window of that later time, happens
to produce the same 6-digit code 118570. -/
theorem c5_window_rejection_counterexample :
    1758012390 / 30 + 2 < 1758015990 / 30 ∧
    totpVerify "JBSWY3DPEHPK3PXP" (totp "JBSWY3DPEHPK3PXP" 1758012390)
      1758015990 2 = true := by
  refine ⟨by decide, by decide⟩

/-- C5 amended: a code generated at step `s = tGen / 30` is always accepted
by window-2 verification at any time whose step lies in `[s - 2, s + 2]`;
at any other time it is accepted exactly when some step within 2 of the
verification step collides with step `s` on the 6-digit code (so it is
rejected whenever no such collision exists, but not universally). -/
theorem c5_totp_window_characterization (secret : String) (tGen tVer : Nat) :
    (tVer / 30 ≤ tGen / 30 + 2 → tGen / 30 ≤ tVer / 30 + 2 →
      totpVerify secret (totp secret tGen) tVer 2 = true) ∧
    (totpVerify secret (totp secret tGen) tVer 2 = true →
      ∃ k, tVer / 30 ≤ k + 2 ∧ k ≤ tVer / 30 + 2 ∧
        totpAtStep secret k = totpAtStep secret (tGen / 30)) := by
  constructor
  · intro h1 h2
    unfold totpVerify totp
    rw [List.any_eq_true]
    refine ⟨tGen / 30, ?_, ?_⟩
    · rw [List.mem_map]
      refine ⟨tGen / 30 + 2 - tVer / 30, ?_, ?_⟩
      · rw [List.mem_range]; omega
      · omega
    · exact beq_self_eq_true (totpAtStep secret (tGen / 30))
  · intro hv
    unfold totpVerify totp at hv
    rw [List.any_eq_true] at hv
    obtain ⟨x, hx, hbeq⟩ := hv
    rw [List.mem_map] at hx
    obtain ⟨j, hj, rfl⟩ := hx
    rw [List.mem_range] at hj
    exact ⟨tVer / 30 + j - 2, by omega, by omega, beq_iff_eq.mp hbeq⟩

/-- C5 witness: the amended theorem applied concretely: the code of step
58600413 is accepted 60 seconds later, at step 58600415. -/
theorem c5_window_witness :
    totpVerify "JBSWY3DPEHPK3PXP" (totp "JBSWY3DPEHPK3PXP" 1758012390)
      1758012450 2 = true :=
  (c5_totp_window_characterization "JBSWY3DPEHPK3PXP" 1758012390 1758012450).1
    (by decide) (by decide)

/-- Number of live pending setups belonging to a username. -/
def userSetupCount (username : String) (l : List (Nat × PendingSetup)) : Nat :=
  (l.filter (fun p => p.2.username == username)).length

/-- The registry invariant: at most one live pending setup per username,
together with the freshness of the id supply (every stored setup id is
below the next one; `uuidv4` guarantees this in the source). -/
def RegistryInv (st : MFAState) : Prop :=
  (∀ u : String, userSetupCount u st.pendingSetups ≤ 1) ∧
  (∀ p ∈ st.pendingSetups, p.1 < st.nextSetupId)

theorem registryInv_of_filter {st st2 : MFAState}
    (q : Nat × PendingSetup → Bool)
    (hpend : st2.pendingSetups = st.pendingSetups.filter q)
    (hnext : st.nextSetupId ≤ st2.nextSetupId) (h : RegistryInv st) :
    RegistryInv st2 := by
  constructor
  · intro u
    rw [userSetupCount, hpend]
    exact le_trans (length_filter_filter_le q _ st.pendingSetups) (h.1 u)
  · intro p hp
    rw [hpend] at hp
    exact lt_of_lt_of_le (h.2 p (List.mem_of_mem_filter hp)) hnext

theorem generateSecret_unfolded (u s : String) (now : Nat) (st : MFAState)
    (h2 : ∀ p ∈ st.pendingSetups, p.1 < st.nextSetupId) :
    generateSecret u s now st =
      (st.nextSetupId,
        { pendingSetups :=
            st.pendingSetups.filter (fun p => !(p.2.username == u)) ++
              [(st.nextSetupId, ⟨u, s, now⟩)],
          userSecrets := st.userSecrets,
          nextSetupId := st.nextSetupId + 1 }) := by
  have hnone : alookup st.nextSetupId
      (st.pendingSetups.filter (fun p => !(p.2.username == u))) = none := by
    rw [alookup_eq_none_iff]
    intro p hp he
    have := h2 p (List.mem_of_mem_filter hp)
    omega
  unfold generateSecret cleanupUserSetups aset
  simp only [hnone, Option.isSome_none, Bool.false_eq_true, if_false]

/-- C4: every registry operation preserves the at-most-one-live-setup-per-
username invariant (together with id freshness), and beginning a second
setup for a username invalidates the first: completing the first setup id
after a second `generateSecret` for the same username fails NotFound
whatever the token. -/
theorem c4_at_most_one_setup_per_user :
    (∀ u st, RegistryInv st → RegistryInv (cleanupUserSetups u st).2) ∧
    (∀ u s now st, RegistryInv st → RegistryInv (generateSecret u s now st).2) ∧
    (∀ setupId token nowMs st, RegistryInv st →
      RegistryInv (completeMFASetup setupId token nowMs st).2) ∧
    (∀ nowMs st, RegistryInv st → RegistryInv (fireDueTimers nowMs st)) ∧
    (∀ u s1 s2 n1 n2 token nowMs st, RegistryInv st →
      (completeMFASetup (generateSecret u s1 n1 st).1 token nowMs
          (generateSecret u s2 n2 (generateSecret u s1 n1 st).2).2).1 =
        CompleteResult.failure "Invalid or expired setup") := by
  have hgenInv : ∀ u s now st, RegistryInv st →
      RegistryInv (generateSecret u s now st).2 := by
    intro u s now st hinv
    rw [generateSecret_unfolded u s now st hinv.2]
    constructor
    · intro w
      rw [userSetupCount, List.filter_append]
      by_cases hw : w = u
      · subst hw
        rw [filter_not_filter_eq_nil]
        simp
      · have hone : (([(st.nextSetupId, (⟨u, s, now⟩ : PendingSetup))]).filter
            (fun p => p.2.username == w)) = [] := by
          simp [hw, Ne.symm hw]
        rw [hone, List.append_nil]
        exact le_trans
          (length_filter_filter_le (fun p => !(p.2.username == u)) _
            st.pendingSetups) (hinv.1 w)
    · intro p hp
      rcases List.mem_append.mp hp with hmem | hmem
      · have := hinv.2 p (List.mem_of_mem_filter hmem)
        simp only []
        omega
      · rcases List.mem_singleton.mp hmem with rfl
        simp
  refine ⟨?_, hgenInv, ?_, ?_, ?_⟩
  · intro u st hinv
    exact registryInv_of_filter _ rfl (Nat.le_refl _) hinv
  · intro setupId token nowMs st hinv
    unfold completeMFASetup completeMFASetupWith
    cases halo : alookup setupId st.pendingSetups with
    | none => exact hinv
    | some setup =>
      by_cases h6 : (token.filter Char.isDigit).length ≠ 6
      · simpa only [if_pos h6] using hinv
      · simp only [if_neg h6]
        by_cases hv : speakeasyVerify setup.secret (token.filter Char.isDigit)
            (nowMs / 1000) = true
        · simp only [hv, if_true]
          exact registryInv_of_filter _ rfl (Nat.le_refl _) hinv
        · simp only [Bool.not_eq_true] at hv
          simpa only [hv, Bool.false_eq_true, if_false] using hinv
  · intro nowMs st hinv
    exact registryInv_of_filter _ rfl (Nat.le_refl _) hinv
  · intro u s1 s2 n1 n2 token nowMs st hinv
    have h1 := generateSecret_unfolded u s1 n1 st hinv.2
    have hinv1 : RegistryInv (generateSecret u s1 n1 st).2 := hgenInv u s1 n1 st hinv
    have h2 := generateSecret_unfolded u s2 n2 (generateSecret u s1 n1 st).2 hinv1.2
    have hid1 : (generateSecret u s1 n1 st).1 = st.nextSetupId := by rw [h1]
    have hpend1 : (generateSecret u s1 n1 st).2.pendingSetups =
        st.pendingSetups.filter (fun p => !(p.2.username == u)) ++
          [(st.nextSetupId, ⟨u, s1, n1⟩)] := by rw [h1]
    have hnext1 : (generateSecret u s1 n1 st).2.nextSetupId =
        st.nextSetupId + 1 := by rw [h1]
    have hpend2 :
        (generateSecret u s2 n2 (generateSecret u s1 n1 st).2).2.pendingSetups =
          (generateSecret u s1 n1 st).2.pendingSetups.filter
              (fun p => !(p.2.username == u)) ++
            [((generateSecret u s1 n1 st).2.nextSetupId, ⟨u, s2, n2⟩)] := by
      rw [h2]
    unfold completeMFASetup completeMFASetupWith
    have hnone : alookup (generateSecret u s1 n1 st).1
        ((generateSecret u s2 n2 (generateSecret u s1 n1 st).2).2).pendingSetups =
          none := by
      rw [hid1, hpend2, hpend1, hnext1]
      rw [alookup_eq_none_iff]
      intro p hp he
      rw [List.filter_append] at hp
      rcases List.mem_append.mp hp with hmem | hmem
      · rcases List.mem_append.mp hmem with hmem2 | hmem2
        · have hlt := hinv.2 p
            (List.mem_of_mem_filter (List.mem_of_mem_filter hmem2))
          omega
        · have hemp : (([((st.nextSetupId : Nat),
              (⟨u, s1, n1⟩ : PendingSetup))]).filter
              (fun p => !(p.2.username == u))) = [] := by simp
          rw [hemp] at hmem2
          cases hmem2
      · rcases List.mem_singleton.mp hmem with rfl
        exact Nat.succ_ne_self st.nextSetupId he
    rw [hnone]

/-- C4 witness: the stale-id consequence of the claim theorem at a concrete
registry: after two `generateSecret` calls for alice, completing the first
returned setup id fails NotFound. -/
theorem c4_stale_setup_witness :
    (completeMFASetup (generateSecret "alice" "S1" 0 ⟨[], [], 0⟩).1
        ['1', '2', '3', '4', '5', '6'] 0
        (generateSecret "alice" "S2" 0
          (generateSecret "alice" "S1" 0 ⟨[], [], 0⟩).2).2).1 =
      CompleteResult.failure "Invalid or expired setup" :=
  c4_at_most_one_setup_per_user.2.2.2.2 "alice" "S1" "S2" 0 0
    ['1', '2', '3', '4', '5', '6'] 0 ⟨[], [], 0⟩
    ⟨fun u => by simp [userSetupCount], fun p hp => absurd hp (List.not_mem_nil p)⟩

end Sentrial
